import Mathlib

/-!
Verification of the PSN welfare registry backend against its specification.

The development shallowly embeds the JavaScript source:
* machine integers are modelled as `Nat`/`Int` with explicit reduction
  modulo `2^32` where JavaScript performs 32-bit coercions;
* fallible code is modelled with `Except` (a JavaScript `throw` is an
  `Except.error` carrying the message);
* module state (the in-memory IP cache, the template table) is passed
  explicitly;
* external collaborators (mail transport, shell commands, the database)
  are parameters, so theorems quantify over every possible outcome of a
  collaborator call;
* string primitives (`split`, `includes`, `startsWith`, `parseInt`) are
  implemented structurally over the character list of a `String`, so
  that closed statements evaluate inside the kernel.
-/

deriving instance DecidableEq for Except

/-! ## String primitives -/

/-- `s.split(sep)` for a one-character separator. -/
def splitOnChar (c : Char) : List Char → List (List Char)
  | [] => [[]]
  | x :: xs =>
    match splitOnChar c xs with
    | [] => [[x]]
    | h :: t => if x = c then [] :: h :: t else (x :: h) :: t

/-- `parseInt(s, 10)` restricted to the decimal numerals that the claims
exercise (`parseInt` of a non-numeral, which yields `NaN`, is not
reached by any claim). -/
def charsToNat (l : List Char) : Nat :=
  l.foldl (fun acc c => acc * 10 + (c.toNat - 48)) 0

/-- `s.startsWith(p)`. -/
def listStartsWith : List Char → List Char → Bool
  | _, [] => true
  | [], _ :: _ => false
  | a :: as, b :: bs => a = b && listStartsWith as bs

def strStartsWith (s p : String) : Bool :=
  listStartsWith s.data p.data

/-- `s.includes(c)` for a one-character needle. -/
def strContains (s : String) (c : Char) : Bool :=
  s.data.contains c

/-- `s.split(sep)` returning strings. -/
def strSplitOn (c : Char) (s : String) : List String :=
  (splitOnChar c s.data).map String.mk

def jsParseInt (s : String) : Nat :=
  charsToNat s.data

/-! ## JavaScript 32-bit numeric coercions -/

/-- JavaScript `ToInt32`: reduce an integer to the signed 32-bit range. -/
def toInt32 (n : Int) : Int :=
  let m := n % 4294967296
  if m < 2147483648 then m else m - 4294967296

/-- JavaScript `ToUint32` (the `>>> 0` idiom): reduce to `[0, 2^32)`. -/
def toUint32 (n : Int) : Nat :=
  (n % 4294967296).toNat

/-! ## IP whitelist middleware (class `IPWhitelist`)

Source: the middleware module defining `IPWhitelist` with methods
`middleware`, `isIPAllowed`, `isIPInRange`, `ipToLong`, `cidrToMask`,
`loadWhitelist`.
-/

/-- A JavaScript runtime value as it flows into `ipToLong`: the source
passes strings (IP addresses) but also, by mistake, a number (the CIDR
mask).  Calling `.split` on a number raises a `TypeError`. -/
inductive JSVal where
  | str (s : String)
  | num (n : Nat)
deriving DecidableEq, Repr

/-- The numeric core of `ipToLong`:
`split('.').reduce((acc, octet) => (acc << 8) + parseInt(octet, 10), 0) >>> 0`.
Each `<< 8` coerces through `ToInt32`; the final `>>> 0` through
`ToUint32`. -/
def ipToLongNum (s : String) : Nat :=
  toUint32 ((strSplitOn '.' s).foldl
    (fun acc o => toInt32 (acc * 256) + (jsParseInt o : Int)) 0)

/-- `ipToLong(ip)`.  On a string it folds the octets; on a number the
property access `ip.split` yields `undefined` and the call raises
`TypeError: ip.split is not a function`. -/
def ipToLong : JSVal → Except String Nat
  | JSVal.str s => Except.ok (ipToLongNum s)
  | JSVal.num _ => Except.error "TypeError: ip.split is not a function"

/-- `cidrToMask(prefixLen) = (-1 << (32 - prefixLen)) >>> 0`.  The
JavaScript shift count is taken modulo 32 (`& 31`), which is what makes
the `/0` case collapse to a shift by zero. -/
def cidrToMask (pfx : Nat) : Nat :=
  toUint32 (toInt32 (-1) * 2 ^ ((32 - pfx) % 32))

/-- `isIPInRange(ip, range)`.  For a CIDR range the source computes the
numeric mask and then feeds it back through `ipToLong` (whose argument
is expected to be a dotted string); the comparison
`(ipLong & maskLong) === (rangeIPLong & maskLong)` compares 32-bit
patterns, modelled with `Nat.land` on the unsigned views. -/
def isIPInRange (ip range : String) : Except String Bool :=
  if strContains range '/' then
    let parts := strSplitOn '/' range
    let rangeIP := parts.headD ""
    let pfx := jsParseInt (parts.getD 1 "")
    let mask := cidrToMask pfx
    do
      let ipLong ← ipToLong (JSVal.str ip)
      let rangeIPLong ← ipToLong (JSVal.str rangeIP)
      let maskLong ← ipToLong (JSVal.num mask)
      pure (decide (Nat.land ipLong maskLong = Nat.land rangeIPLong maskLong))
  else
    pure (decide (ip = range))

/-- Modelled from the spec: "CIDR matching: computed via integer mask
comparison (`ip & mask == network & mask`)" — the intended semantics of
`isIPInRange`, with the numeric mask used directly instead of being fed
back through `ipToLong`.  Used to state what the claims expect the
range check to return. -/
def isIPInRangeSpec (ip range : String) : Bool :=
  if strContains range '/' then
    let parts := strSplitOn '/' range
    let rangeIP := parts.headD ""
    let pfx := jsParseInt (parts.getD 1 "")
    let mask := cidrToMask pfx
    decide (Nat.land (ipToLongNum ip) mask = Nat.land (ipToLongNum rangeIP) mask)
  else
    decide (ip = range)

/-- The loop of `isIPAllowed` over the whitelist entries: the first
entry whose `isIPInRange` check returns `true` accepts; a thrown
`TypeError` propagates. -/
def anyInRange (ip : String) : List String → Except String Bool
  | [] => Except.ok false
  | r :: rest => do
      let b ← isIPInRange ip r
      if b then pure true else anyInRange ip rest

/-- `isIPAllowed(ip)`: exact membership in the whitelist set, then the
CIDR loop over the same entries. -/
def isIPAllowed (ip : String) (wl : List String) : Except String Bool :=
  if wl.contains ip then Except.ok true else anyInRange ip wl

/-- Outcome of the gate middleware: `next()` or one of the two 403
responses. -/
inductive GateDecision where
  | pass
  | denyAdmin
  | denyGeneral
deriving DecidableEq, Repr

/-- `IPWhitelist.middleware` on a request with path `path` from client
IP `ip`, with the cached regular whitelist `wl` and admin list
`admin`.  Follows the source's branch order exactly. -/
def middleware (path ip : String) (wl admin : List String) :
    Except String GateDecision :=
  if path = "/health" then Except.ok GateDecision.pass
  else if strStartsWith path "/api/auth" then Except.ok GateDecision.pass
  else if wl.contains ip then Except.ok GateDecision.pass
  else if strStartsWith path "/api/admin" then
    if admin.contains ip then Except.ok GateDecision.pass
    else Except.ok GateDecision.denyAdmin
  else do
    let allowed ← isIPAllowed ip wl
    if allowed then pure GateDecision.pass else pure GateDecision.denyGeneral

/-- Modelled from the spec: the decision rule exactly as the claim
states it — (1) health and auth paths pass; (2) an exact or CIDR match
(in the intended mask-comparison sense) against the general allow-list
passes; (3) admin paths additionally require an exact admin-list match;
(4) otherwise reject. -/
def claimGate (path ip : String) (wl admin : List String) : GateDecision :=
  if path = "/health" || strStartsWith path "/api/auth" then GateDecision.pass
  else if wl.contains ip || wl.any (fun r => isIPInRangeSpec ip r) then
    GateDecision.pass
  else if strStartsWith path "/api/admin" then
    if admin.contains ip then GateDecision.pass else GateDecision.denyAdmin
  else GateDecision.denyGeneral

/-- The order the source actually implements: health and auth paths
pass; an exact general-list match passes; admin paths then pass only on
an exact admin-list match (CIDR ranges are never consulted for admin
paths); other paths fall through to the CIDR loop, which raises a
`TypeError` as soon as it reaches a CIDR entry and otherwise denies. -/
def actualGate (path ip : String) (wl admin : List String) :
    Except String GateDecision :=
  if path = "/health" then Except.ok GateDecision.pass
  else if strStartsWith path "/api/auth" then Except.ok GateDecision.pass
  else if wl.contains ip then Except.ok GateDecision.pass
  else if strStartsWith path "/api/admin" then
    if admin.contains ip then Except.ok GateDecision.pass
    else Except.ok GateDecision.denyAdmin
  else if wl.any (fun r => strContains r '/') then
    Except.error "TypeError: ip.split is not a function"
  else Except.ok GateDecision.denyGeneral

/-- On any CIDR entry the range check throws before comparing: the
numeric mask reaches `ipToLong`, which has no `.split`. -/
theorem isIPInRange_cidr_error (ip range : String)
    (h : strContains range '/' = true) :
    isIPInRange ip range
      = Except.error "TypeError: ip.split is not a function" := by
  unfold isIPInRange
  rw [if_pos h]
  rfl

/-- On a non-CIDR entry the range check is plain string equality. -/
theorem isIPInRange_exact (ip range : String)
    (h : strContains range '/' = false) :
    isIPInRange ip range = Except.ok (decide (ip = range)) := by
  unfold isIPInRange
  rw [if_neg (by rw [h]; exact Bool.false_ne_true)]
  rfl

/-- When the client IP is not an exact member, the whitelist loop
throws at the first CIDR entry and otherwise finds nothing. -/
theorem anyInRange_characterization (ip : String) (wl : List String)
    (h : ip ∉ wl) :
    anyInRange ip wl
      = if wl.any (fun r => strContains r '/') then
          Except.error "TypeError: ip.split is not a function"
        else Except.ok false := by
  induction wl with
  | nil => rfl
  | cons r rest ih =>
      have hir : ip ≠ r := fun e => h (e ▸ List.mem_cons_self r rest)
      have hrest : ip ∉ rest := fun m => h (List.mem_cons_of_mem _ m)
      rw [anyInRange]
      by_cases hcidr : strContains r '/' = true
      · rw [isIPInRange_cidr_error ip r hcidr]
        have hany : ((r :: rest).any fun x => strContains x '/') = true := by
          rw [List.any_cons, hcidr]
          rfl
        rw [hany, if_pos rfl]
        rfl
      · have hcidr' : strContains r '/' = false := by
          revert hcidr
          cases strContains r '/' <;> simp
        rw [isIPInRange_exact ip r hcidr', decide_eq_false hir]
        have hany : ((r :: rest).any fun x => strContains x '/')
            = rest.any fun x => strContains x '/' := by
          rw [List.any_cons, hcidr']
          rfl
        rw [hany]
        show (if false = true then (pure true : Except String Bool)
          else anyInRange ip rest) = _
        rw [if_neg Bool.false_ne_true]
        exact ih hrest

/-- C3 (amended): for every request, the gate evaluates its decision
rule in the order the source implements: (1) health-check and
authentication paths always pass; (2) an exact match of the client IP
against the general allow-list passes; (3) admin-scoped paths then pass
only on an exact match against the admin allow-list and are otherwise
rejected — CIDR ranges of the general list are never consulted for
admin paths; (4) any other path falls through to the CIDR loop, which
raises a `TypeError` as soon as a CIDR entry is reached and otherwise
rejects with access denied. -/
theorem middleware_decision_order (path ip : String) (wl admin : List String) :
    middleware path ip wl admin = actualGate path ip wl admin := by
  unfold middleware actualGate
  by_cases h1 : path = "/health"
  · rw [if_pos h1, if_pos h1]
  rw [if_neg h1, if_neg h1]
  by_cases h2 : strStartsWith path "/api/auth" = true
  · rw [if_pos h2, if_pos h2]
  rw [if_neg h2, if_neg h2]
  by_cases h3 : wl.contains ip = true
  · rw [if_pos h3, if_pos h3]
  rw [if_neg h3, if_neg h3]
  by_cases h4 : strStartsWith path "/api/admin" = true
  · rw [if_pos h4, if_pos h4]
  rw [if_neg h4, if_neg h4]
  have h3' : ip ∉ wl := fun hm => h3 (List.elem_eq_true_of_mem hm)
  rw [isIPAllowed, if_neg h3, anyInRange_characterization ip wl h3']
  by_cases h5 : (wl.any fun r => strContains r '/') = true
  · rw [if_pos h5, if_pos h5]
    rfl
  · rw [if_neg h5, if_neg h5]
    rfl

/-- C3 (counterexample): the claim's decision rule passes a client
whose IP matches a general-list CIDR range on an admin path (clause 2
fires before the admin clause), but the source denies it: the admin
branch is reached after only the exact general-list check, and consults
only the admin list. -/
theorem gate_decision_order_counterexample :
    claimGate "/api/admin/users" "10.1.2.3" ["10.0.0.0/8"] []
      = GateDecision.pass ∧
    middleware "/api/admin/users" "10.1.2.3" ["10.0.0.0/8"] []
      = Except.ok GateDecision.denyAdmin := by
  constructor
  · decide
  · decide

/-- C1: the IP gate's range check does not decide membership by integer
mask comparison: for address `192.168.1.5` against `192.168.1.0/24`
(and against `192.168.2.0/24`) it throws a `TypeError`, because the
numeric mask produced by `cidrToMask` is passed to `ipToLong`, which
calls `.split` on it.  The intended mask comparison stated by the spec
would accept the first range and reject the second. -/
theorem ipgate_cidr_check_type_error :
    isIPInRange "192.168.1.5" "192.168.1.0/24"
      = Except.error "TypeError: ip.split is not a function" ∧
    isIPInRange "192.168.1.5" "192.168.2.0/24"
      = Except.error "TypeError: ip.split is not a function" ∧
    isIPInRangeSpec "192.168.1.5" "192.168.1.0/24" = true ∧
    isIPInRangeSpec "192.168.1.5" "192.168.2.0/24" = false := by
  refine ⟨by decide, by decide, by decide, by decide⟩

/-- C2: `cidrToMask` is wrong at the degenerate `/0` boundary: the
claim requires `cidrToMask 0 = 0` (a mask with zero leading one bits),
but the JavaScript shift count `32 - 0` is reduced modulo 32, so the
code returns the all-ones mask `4294967295`.  The `/32` and interior
cases do produce the claimed masks. -/
theorem cidrToMask_zero_boundary_bug :
    cidrToMask 0 = 4294967295 ∧
    cidrToMask 0 ≠ 0 ∧
    cidrToMask 32 = 4294967295 ∧
    cidrToMask 24 = 4294967040 ∧
    cidrToMask 8 = 4278190080 ∧
    cidrToMask 1 = 2147483648 := by
  refine ⟨by decide, by decide, by decide, by decide, by decide, by decide⟩

/-! ## Email service (class `EmailService`, `backend/src/config/email.js`)

`sendEmail` wraps its whole body in `try/catch`: the `catch` converts
any thrown error (unknown template, transport failure) into a returned
`{ success: false, error, to, subject }` record, so `sendEmail` itself
never throws.  `sendBulkEmails` loops over the recipients in order,
awaiting each send and then a 100 ms `setTimeout`.

The mail transport (`this.transporter.sendMail`) is a parameter
returning the provider message id or throwing.  Template rendering is a
parameter function from a flat key/value context to HTML (the three
presentation fields the source merges into the context — `year`,
`baseUrl`, `supportEmail` — are absorbed into that function; no claim
depends on them).
-/

/-- A flat key/value template context. -/
abbrev Ctx := List (String × String)

/-- A compiled template: context to rendered HTML. -/
abbrev Tmpl := Ctx → String

/-- The mail options handed to the transport (`from` and the derived
plain-text body are environment presentation, not modelled). -/
structure Mail where
  toAddr : String
  subject : String
  html : String

/-- The per-send outcome record returned by `sendEmail`. -/
structure EmailResult where
  success : Bool
  messageId : Option String
  error : Option String
  toAddr : String
  subject : String
deriving DecidableEq, Repr

/-- `this.templates[templateName]`: name lookup in the loaded template
table. -/
def lookupTemplate : List (String × Tmpl) → String → Option Tmpl
  | [], _ => none
  | (k, t) :: rest, name => if k = name then some t else lookupTemplate rest name

/-- The `try` block of `sendEmail`: look the template up (an unknown
name throws ``Template "name" not found``), render, and call the
transport (which returns a message id or throws). -/
def sendEmailTry (templates : List (String × Tmpl))
    (transport : Mail → Except String String)
    (toAddr subject templateName : String) (data : Ctx) : Except String String :=
  match lookupTemplate templates templateName with
  | none => Except.error ("Template \"" ++ templateName ++ "\" not found")
  | some t => transport { toAddr := toAddr, subject := subject, html := t data }

/-- `sendEmail`: the `catch` turns any thrown error into a
`success: false` record; a delivered send yields a `success: true`
record with the provider message id. -/
def sendEmail (templates : List (String × Tmpl))
    (transport : Mail → Except String String)
    (toAddr subject templateName : String) (data : Ctx) : EmailResult :=
  match sendEmailTry templates transport toAddr subject templateName data with
  | Except.ok mid =>
      { success := true, messageId := some mid, error := none,
        toAddr := toAddr, subject := subject }
  | Except.error e =>
      { success := false, messageId := none, error := some e,
        toAddr := toAddr, subject := subject }

/-- One entry of the `recipients` array of `sendBulkEmails`. -/
structure Recipient where
  email : String
  vars : Ctx

/-- Observable steps of the bulk loop: a send attempt or the
`setTimeout` rate-limit delay. -/
inductive BulkEvent where
  | send (toAddr : String)
  | delay (ms : Nat)
deriving DecidableEq, Repr

/-- Accumulated loop state: per-recipient results and the event trace. -/
structure BulkOut where
  results : List EmailResult
  trace : List BulkEvent

/-- The `for (const recipient of recipients)` loop: one awaited
`sendEmail` then one awaited 100 ms delay per recipient, in array
order.  (`sendEmail` never throws, so the loop's own `catch` is dead
code.) -/
def bulkLoop (templates : List (String × Tmpl))
    (transport : Mail → Except String String)
    (subject templateName : String) (data : Ctx) : List Recipient → BulkOut
  | [] => { results := [], trace := [] }
  | r :: rest =>
      let res := sendEmail templates transport r.email subject templateName
        (data ++ r.vars)
      let tail := bulkLoop templates transport subject templateName data rest
      { results := res :: tail.results,
        trace := BulkEvent.send r.email :: BulkEvent.delay 100 :: tail.trace }

/-- The summary object returned by `sendBulkEmails`. -/
structure BulkSummary where
  total : Nat
  sent : Nat
  failed : Nat
  results : List EmailResult
  trace : List BulkEvent

/-- `sendBulkEmails(recipients, subject, templateName, data)`. -/
def sendBulkEmails (templates : List (String × Tmpl))
    (transport : Mail → Except String String)
    (recipients : List Recipient)
    (subject templateName : String) (data : Ctx) : BulkSummary :=
  let out := bulkLoop templates transport subject templateName data recipients
  { total := recipients.length,
    sent := (out.results.filter (fun r => r.success)).length,
    failed := (out.results.filter (fun r => !r.success)).length,
    results := out.results,
    trace := out.trace }

theorem bulkLoop_results (templates : List (String × Tmpl))
    (transport : Mail → Except String String)
    (subject templateName : String) (data : Ctx) (recipients : List Recipient) :
    (bulkLoop templates transport subject templateName data recipients).results
      = recipients.map (fun r =>
          sendEmail templates transport r.email subject templateName
            (data ++ r.vars)) := by
  induction recipients with
  | nil => rfl
  | cons r rest ih => rw [bulkLoop, List.map_cons, ← ih]

theorem bulkLoop_trace (templates : List (String × Tmpl))
    (transport : Mail → Except String String)
    (subject templateName : String) (data : Ctx) (recipients : List Recipient) :
    (bulkLoop templates transport subject templateName data recipients).trace
      = recipients.flatMap (fun r =>
          [BulkEvent.send r.email, BulkEvent.delay 100]) := by
  induction recipients with
  | nil => rfl
  | cons r rest ih => rw [bulkLoop, List.flatMap_cons, ← ih]; rfl

theorem length_filter_add_length_filter_not {α : Type} (p : α → Bool)
    (l : List α) :
    (l.filter p).length + (l.filter (fun a => !p a)).length = l.length := by
  induction l with
  | nil => rfl
  | cons a rest ih =>
      by_cases h : p a = true
      · rw [List.filter_cons_of_pos h,
          List.filter_cons_of_neg (by rw [h]; exact Bool.false_ne_true),
          List.length_cons, Nat.succ_add, ih]
        rfl
      · have h' : p a = false := by revert h; cases p a <;> simp
        rw [List.filter_cons_of_neg (by rw [h']; exact Bool.false_ne_true),
          List.filter_cons_of_pos (by rw [h']; rfl),
          List.length_cons, Nat.add_succ, ih]
        rfl

/-- C5: for every recipient list, `sendBulkEmails` dispatches
sequentially in input order — its event trace is exactly one send per
recipient, each followed by the fixed 100 ms delay, with no
interleaving — and its summary satisfies `total` = number of
recipients, one result per recipient in input order, and
`sent + failed = total`. -/
theorem sendBulkEmails_sequential_summary (templates : List (String × Tmpl))
    (transport : Mail → Except String String) (recipients : List Recipient)
    (subject templateName : String) (data : Ctx) :
    (sendBulkEmails templates transport recipients subject templateName
        data).trace
      = recipients.flatMap (fun r =>
          [BulkEvent.send r.email, BulkEvent.delay 100]) ∧
    (sendBulkEmails templates transport recipients subject templateName
        data).results
      = recipients.map (fun r =>
          sendEmail templates transport r.email subject templateName
            (data ++ r.vars)) ∧
    (sendBulkEmails templates transport recipients subject templateName
        data).total = recipients.length ∧
    (sendBulkEmails templates transport recipients subject templateName
        data).results.length = recipients.length ∧
    (sendBulkEmails templates transport recipients subject templateName
        data).sent
      + (sendBulkEmails templates transport recipients subject templateName
          data).failed
      = (sendBulkEmails templates transport recipients subject templateName
          data).total := by
  refine ⟨bulkLoop_trace templates transport subject templateName data
      recipients,
    bulkLoop_results templates transport subject templateName data recipients,
    rfl, ?_, ?_⟩
  · rw [show (sendBulkEmails templates transport recipients subject
        templateName data).results
        = (bulkLoop templates transport subject templateName data
            recipients).results from rfl,
      bulkLoop_results, List.length_map]
  · rw [show (sendBulkEmails templates transport recipients subject
        templateName data).sent
        = ((bulkLoop templates transport subject templateName data
            recipients).results.filter (fun r => r.success)).length from rfl,
      show (sendBulkEmails templates transport recipients subject
        templateName data).failed
        = ((bulkLoop templates transport subject templateName data
            recipients).results.filter (fun r => !r.success)).length from rfl,
      length_filter_add_length_filter_not,
      show (sendBulkEmails templates transport recipients subject
        templateName data).total = recipients.length from rfl,
      bulkLoop_results, List.length_map]

/-- C4: a transport-level failure for one recipient is caught inside
`sendEmail` and recorded as that recipient's failed outcome; every
other recipient's outcome is its own independent `sendEmail` result
(the batch is not aborted), and the summary surfaces the failure as a
positive failed-outcome count instead of a thrown error. -/
theorem sendBulkEmails_isolates_failures (templates : List (String × Tmpl))
    (transport : Mail → Except String String) (recipients : List Recipient)
    (subject templateName : String) (data : Ctx) (i : Nat) (t : Tmpl)
    (e : String) (hi : i < recipients.length)
    (ht : lookupTemplate templates templateName = some t)
    (hfail : transport
        { toAddr := (recipients.get ⟨i, hi⟩).email, subject := subject,
          html := t (data ++ (recipients.get ⟨i, hi⟩).vars) }
      = Except.error e) :
    (sendBulkEmails templates transport recipients subject templateName
        data).results
      = recipients.map (fun r =>
          sendEmail templates transport r.email subject templateName
            (data ++ r.vars)) ∧
    (sendBulkEmails templates transport recipients subject templateName
        data).total = recipients.length ∧
    (sendBulkEmails templates transport recipients subject templateName
        data).results[i]?
      = some { success := false, messageId := none, error := some e,
               toAddr := (recipients.get ⟨i, hi⟩).email,
               subject := subject } ∧
    1 ≤ (sendBulkEmails templates transport recipients subject templateName
        data).failed := by
  have hres : (sendBulkEmails templates transport recipients subject
      templateName data).results
      = recipients.map (fun r =>
          sendEmail templates transport r.email subject templateName
            (data ++ r.vars)) :=
    bulkLoop_results templates transport subject templateName data recipients
  have htry : sendEmailTry templates transport
      (recipients.get ⟨i, hi⟩).email subject templateName
      (data ++ (recipients.get ⟨i, hi⟩).vars) = Except.error e := by
    unfold sendEmailTry
    rw [ht]
    exact hfail
  have hsend : sendEmail templates transport
      (recipients.get ⟨i, hi⟩).email subject templateName
      (data ++ (recipients.get ⟨i, hi⟩).vars)
      = { success := false, messageId := none, error := some e,
          toAddr := (recipients.get ⟨i, hi⟩).email, subject := subject } := by
    unfold sendEmail
    rw [htry]
  have hmap : (recipients.map (fun r =>
      sendEmail templates transport r.email subject templateName
        (data ++ r.vars)))[i]?
      = some (sendEmail templates transport
          (recipients.get ⟨i, hi⟩).email subject templateName
          (data ++ (recipients.get ⟨i, hi⟩).vars)) := by
    rw [List.getElem?_map, List.getElem?_eq_getElem hi]
    rfl
  have hget : (sendBulkEmails templates transport recipients subject
      templateName data).results[i]?
      = some { success := false, messageId := none, error := some e,
               toAddr := (recipients.get ⟨i, hi⟩).email,
               subject := subject } := by
    rw [hres, hmap, hsend]
  refine ⟨hres, rfl, hget, ?_⟩
  have hmem : ({ success := false, messageId := none, error := some e,
                 toAddr := (recipients.get ⟨i, hi⟩).email,
                 subject := subject } : EmailResult)
      ∈ (sendBulkEmails templates transport recipients subject templateName
          data).results :=
    List.getElem?_mem hget
  have hmemf : ({ success := false, messageId := none, error := some e,
                  toAddr := (recipients.get ⟨i, hi⟩).email,
                  subject := subject } : EmailResult)
      ∈ (sendBulkEmails templates transport recipients subject templateName
          data).results.filter (fun r => !r.success) :=
    List.mem_filter.mpr ⟨hmem, rfl⟩
  exact List.length_pos_of_mem hmemf

/-- Concrete template table for the bulk-send witness. -/
def tplW : List (String × Tmpl) := [("reminder", fun _ => "<p>x</p>")]

/-- Concrete transport for the bulk-send witness: delivery to `b@x`
fails at the transport, every other delivery succeeds. -/
def trW : Mail → Except String String := fun m =>
  if m.toAddr = "b@x" then Except.error "ECONNREFUSED"
  else Except.ok "mid-1"

/-- Concrete recipient list for the bulk-send witness. -/
def recW : List Recipient := [{ email := "a@x", vars := [] },
  { email := "b@x", vars := [] }]

/-- C4 (witness): in a two-recipient batch whose second transport call
fails, the second result is the recorded failure and the failed count
is positive. -/
theorem sendBulkEmails_isolates_failures_witness :
    (sendBulkEmails tplW trW recW "Hello" "reminder" []).results[1]?
      = some { success := false, messageId := none,
               error := some "ECONNREFUSED", toAddr := "b@x",
               subject := "Hello" } ∧
    1 ≤ (sendBulkEmails tplW trW recW "Hello" "reminder" []).failed := by
  have h := sendBulkEmails_isolates_failures tplW trW recW "Hello" "reminder"
    [] 1 (fun _ => "<p>x</p>") "ECONNREFUSED" (by decide) rfl rfl
  exact ⟨h.2.2.1, h.2.2.2⟩

/-- C6: a send with a template name missing from the loaded table is a
hard error: the `try` block throws ``Template "name" not found``, and
`sendEmail` surfaces exactly that error to its caller as a
`success: false` outcome carrying the message — never a success. -/
theorem sendEmail_unknown_template (templates : List (String × Tmpl))
    (transport : Mail → Except String String)
    (toAddr subject templateName : String) (data : Ctx)
    (h : lookupTemplate templates templateName = none) :
    sendEmailTry templates transport toAddr subject templateName data
      = Except.error ("Template \"" ++ templateName ++ "\" not found") ∧
    (sendEmail templates transport toAddr subject templateName data).success
      = false ∧
    (sendEmail templates transport toAddr subject templateName data).error
      = some ("Template \"" ++ templateName ++ "\" not found") ∧
    (sendEmail templates transport toAddr subject templateName
        data).messageId = none := by
  have htry : sendEmailTry templates transport toAddr subject templateName
      data = Except.error ("Template \"" ++ templateName ++ "\" not found")
      := by
    unfold sendEmailTry
    rw [h]
  refine ⟨htry, ?_, ?_, ?_⟩ <;>
    · unfold sendEmail
      rw [htry]

/-- C6 (witness): sending with template name `nope` against the
concrete witness table fails with the template-not-found error and no
success. -/
theorem sendEmail_unknown_template_witness :
    (sendEmail tplW trW "a@x" "Hello" "nope" []).success = false ∧
    (sendEmail tplW trW "a@x" "Hello" "nope" []).error
      = some "Template \"nope\" not found" := by
  have h := sendEmail_unknown_template tplW trW "a@x" "Hello" "nope" []
    (by rfl)
  refine ⟨h.2.1, ?_⟩
  rw [h.2.2.1]
  decide

/-! ## Next-of-kin saving (`saveNewKin`, `scripts/dashboard.js`)

The dashboard keeps the member's next-of-kin records in
`DashboardState.nextOfKin`.  `saveNewKin` builds a `kinObj` from the
form, and — when the new record is flagged primary — first clears the
primary flag on every existing record
(`DashboardState.nextOfKin.forEach(kin => kin.isPrimary = false)`),
then either replaces the record found by `findIndex` (edit mode) or
appends a new record.
-/

/-- One next-of-kin record (the contact fields that do not affect the
primary-flag invariant are kept for fidelity). -/
structure Kin where
  id : Nat
  fullName : String
  relationship : String
  phone : String
  email : String
  isPrimary : Bool
deriving DecidableEq, Repr

/-- `DashboardState.nextOfKin.forEach(kin => kin.isPrimary = false)`. -/
def clearPrimaries (kins : List Kin) : List Kin :=
  kins.map (fun k => { k with isPrimary := false })

/-- The `findIndex`-and-replace step of edit mode: replace the record
whose id matches the edited id; leave the list unchanged when
`findIndex` returns -1. -/
def replaceById (kins1 : List Kin) (obj : Kin) (eid : Nat) : List Kin :=
  match kins1.findIdx? (fun k => k.id = eid) with
  | some idx => kins1.set idx obj
  | none => kins1

/-- The branch structure of `saveNewKin` after the primary flags have
been cleared: replace the record found by `findIndex` (edit mode, by
the edited id) or append a new record (add mode, with the freshly
generated id). -/
def saveKinCore (kins1 : List Kin) (kinObj : Kin) (isEditing : Bool)
    (currentEditId : Option Nat) (newId : Nat) : List Kin :=
  match isEditing, currentEditId with
  | true, some eid => replaceById kins1 { kinObj with id := eid } eid
  | _, _ => kins1 ++ [{ kinObj with id := newId }]

/-- The state update performed by `saveNewKin` after validation: clear
all primary flags when the saved record is primary, then replace (edit
mode) or append (add mode). -/
def saveNewKin (kins : List Kin) (kinObj : Kin) (isEditing : Bool)
    (currentEditId : Option Nat) (newId : Nat) : List Kin :=
  saveKinCore (if kinObj.isPrimary then clearPrimaries kins else kins)
    kinObj isEditing currentEditId newId

/-- Number of records carrying the primary flag. -/
def primaryCount (kins : List Kin) : Nat :=
  kins.countP (fun k => k.isPrimary)

theorem countP_set_le {α : Type} (p : α → Bool) (l : List α) (i : Nat)
    (v : α) :
    ((l.set i v).countP p) ≤ l.countP p + (if p v then 1 else 0) := by
  induction l generalizing i with
  | nil => simp [List.set]
  | cons a t ih =>
      cases i with
      | zero =>
          rw [List.set_cons_zero, List.countP_cons, List.countP_cons]
          omega
      | succ n =>
          rw [List.set_cons_succ, List.countP_cons, List.countP_cons]
          have := ih n
          omega

theorem primaryCount_clearPrimaries (kins : List Kin) :
    primaryCount (clearPrimaries kins) = 0 := by
  unfold primaryCount clearPrimaries
  rw [List.countP_map]
  exact List.countP_eq_zero.mpr (fun a _ => Bool.false_ne_true)

theorem primaryCount_append_one (l : List Kin) (v : Kin) :
    primaryCount (l ++ [v])
      = primaryCount l + (if v.isPrimary then 1 else 0) := by
  unfold primaryCount
  rw [List.countP_append, List.countP_cons, List.countP_nil]
  omega

theorem primaryCount_replaceById_le (kins1 : List Kin) (obj : Kin)
    (eid : Nat) :
    primaryCount (replaceById kins1 obj eid)
      ≤ primaryCount kins1 + (if obj.isPrimary then 1 else 0) := by
  unfold replaceById
  cases hidx : kins1.findIdx? (fun k => k.id = eid) with
  | none => exact Nat.le_add_right _ _
  | some idx => exact countP_set_le (fun k => k.isPrimary) kins1 idx obj

theorem primaryCount_saveKinCore_le (kins1 : List Kin) (kinObj : Kin)
    (isEditing : Bool) (currentEditId : Option Nat) (newId : Nat) :
    primaryCount (saveKinCore kins1 kinObj isEditing currentEditId newId)
      ≤ primaryCount kins1 + (if kinObj.isPrimary then 1 else 0) := by
  cases isEditing with
  | false =>
      exact le_of_eq (primaryCount_append_one kins1 { kinObj with id := newId })
  | true =>
      cases currentEditId with
      | none =>
          exact le_of_eq
            (primaryCount_append_one kins1 { kinObj with id := newId })
      | some eid =>
          exact primaryCount_replaceById_le kins1 { kinObj with id := eid } eid

/-- C7: after every save of a next-of-kin record, at most one record
carries the primary flag — preserved from any state already satisfying
the invariant, and (re)established unconditionally whenever the saved
record is flagged primary, because the save first clears the flag on
every existing record. -/
theorem saveNewKin_primary_invariant (kins : List Kin) (kinObj : Kin)
    (isEditing : Bool) (currentEditId : Option Nat) (newId : Nat)
    (h : primaryCount kins ≤ 1 ∨ kinObj.isPrimary = true) :
    primaryCount (saveNewKin kins kinObj isEditing currentEditId newId)
      ≤ 1 := by
  have hb : primaryCount (if kinObj.isPrimary then clearPrimaries kins
      else kins) + (if kinObj.isPrimary then 1 else 0) ≤ 1 := by
    cases hp : kinObj.isPrimary with
    | true =>
        rw [if_pos rfl, if_pos rfl, primaryCount_clearPrimaries]
    | false =>
        rw [if_neg Bool.false_ne_true, if_neg Bool.false_ne_true]
        rcases h with h1 | h2
        · omega
        · rw [hp] at h2
          exact absurd h2 Bool.false_ne_true
  exact le_trans
    (primaryCount_saveKinCore_le _ kinObj isEditing currentEditId newId) hb

/-- C7 (witness): saving a new primary contact into a list that already
has a primary leaves at most one primary flag set. -/
theorem saveNewKin_primary_invariant_witness :
    primaryCount (saveNewKin
      [{ id := 1, fullName := "Ada", relationship := "sister",
         phone := "08030000001", email := "", isPrimary := true },
       { id := 2, fullName := "Ben", relationship := "brother",
         phone := "08030000002", email := "", isPrimary := false }]
      { id := 0, fullName := "Eze", relationship := "uncle",
        phone := "08030000003", email := "e@x", isPrimary := true }
      false none 3) ≤ 1 :=
  saveNewKin_primary_invariant _ _ false none 3 (Or.inr rfl)

/-! ## Whitelist cache reload (`IPWhitelist.loadWhitelist`)

After the database read resolves, `loadWhitelist` runs
`this.whitelist.clear(); this.adminIPs.clear();` followed by one
`Set.add` per enabled entry — it mutates the two live sets in place.
The reload is modelled as the sequence of primitive cache operations
the source performs, applied to the cache state; `CacheOp.swapIn` is
the single atomic-replacement operation the spec describes, stated for
comparison. -/

/-- One enabled `IPWhitelistEntry` as read from the database. -/
structure WLEntry where
  ipAddress : String
  isAdminIP : Bool
deriving DecidableEq, Repr

/-- The in-memory cache: the two JavaScript `Set`s in insertion order. -/
structure WLCache where
  whitelist : List String
  adminIPs : List String
deriving DecidableEq, Repr

/-- Primitive operations on the cache.  The first four are what the
source performs; `swapIn` is the atomic replacement the spec claims. -/
inductive CacheOp where
  | clearWhitelist
  | clearAdmin
  | addWhitelist (ip : String)
  | addAdmin (ip : String)
  | swapIn (wl admin : List String)
deriving DecidableEq, Repr

def applyOp (c : WLCache) : CacheOp → WLCache
  | CacheOp.clearWhitelist => { c with whitelist := [] }
  | CacheOp.clearAdmin => { c with adminIPs := [] }
  | CacheOp.addWhitelist ip => { c with whitelist := c.whitelist ++ [ip] }
  | CacheOp.addAdmin ip => { c with adminIPs := c.adminIPs ++ [ip] }
  | CacheOp.swapIn wl admin => { whitelist := wl, adminIPs := admin }

/-- The `forEach` body: route an entry to the admin or the regular set. -/
def entryOp (e : WLEntry) : CacheOp :=
  if e.isAdminIP then CacheOp.addAdmin e.ipAddress
  else CacheOp.addWhitelist e.ipAddress

/-- The operation sequence `loadWhitelist` performs on the cache once
the query resolves: clear both sets, then add the entries one by one. -/
def loadWhitelistOps (entries : List WLEntry) : List CacheOp :=
  CacheOp.clearWhitelist :: CacheOp.clearAdmin :: entries.map entryOp

def applyOps (c : WLCache) (ops : List CacheOp) : WLCache :=
  ops.foldl applyOp c

/-- Every state the cache passes through while a sequence of operations
runs, the initial and final states included. -/
def cacheStates (c : WLCache) : List CacheOp → List WLCache
  | [] => [c]
  | op :: rest => c :: cacheStates (applyOp c op) rest

/-- The whitelist freshly built from the entries, as the spec's
atomic-swap description would install it in one step. -/
def freshCache (entries : List WLEntry) : WLCache :=
  { whitelist := (entries.filter (fun e => !e.isAdminIP)).map WLEntry.ipAddress,
    adminIPs := (entries.filter (fun e => e.isAdminIP)).map WLEntry.ipAddress }

theorem applyOps_entryOps (entries : List WLEntry) (w a : List String) :
    applyOps { whitelist := w, adminIPs := a } (entries.map entryOp)
      = { whitelist :=
            w ++ (entries.filter (fun e => !e.isAdminIP)).map WLEntry.ipAddress,
          adminIPs :=
            a ++ (entries.filter (fun e => e.isAdminIP)).map WLEntry.ipAddress }
      := by
  induction entries generalizing w a with
  | nil => simp [applyOps]
  | cons e rest ih =>
      cases hadm : e.isAdminIP with
      | false =>
          have h1 : applyOps { whitelist := w, adminIPs := a }
              ((e :: rest).map entryOp)
              = applyOps { whitelist := w ++ [e.ipAddress], adminIPs := a }
                  (rest.map entryOp) := by
            rw [List.map_cons]
            show applyOps (applyOp { whitelist := w, adminIPs := a }
              (entryOp e)) (rest.map entryOp) = _
            rw [entryOp, if_neg (by rw [hadm]; exact Bool.false_ne_true)]
            rfl
          rw [h1, ih,
            List.filter_cons_of_pos (by rw [hadm]; rfl),
            List.filter_cons_of_neg (by rw [hadm]; exact Bool.false_ne_true),
            List.map_cons]
          simp [List.append_assoc]
      | true =>
          have h1 : applyOps { whitelist := w, adminIPs := a }
              ((e :: rest).map entryOp)
              = applyOps { whitelist := w, adminIPs := a ++ [e.ipAddress] }
                  (rest.map entryOp) := by
            rw [List.map_cons]
            show applyOps (applyOp { whitelist := w, adminIPs := a }
              (entryOp e)) (rest.map entryOp) = _
            rw [entryOp, if_pos hadm]
            rfl
          rw [h1, ih,
            List.filter_cons_of_neg (by simp [hadm]),
            List.filter_cons_of_pos (by rw [hadm]),
            List.map_cons]
          simp [List.append_assoc]

theorem cacheStates_head (ops : List CacheOp) (c : WLCache) :
    (cacheStates c ops).head? = some c := by
  cases ops with
  | nil => simp [cacheStates]
  | cons op rest => simp [cacheStates]

/-- C8 (amended): the reload mutates the live sets in place — it
clears both sets and then repopulates them entry by entry, so the
operation trace always passes through the fully emptied cache right
after the two clears — and on completion the cache equals the freshly
built set regardless of its prior contents (full replacement, with no
dependence on the old state).  The whole clear-and-repopulate sequence
runs synchronously after the database read (modelled as one
uninterrupted operation list), which is what stands between readers
and the emptied intermediate states in the single-threaded runtime. -/
theorem loadWhitelist_clears_then_repopulates (entries : List WLEntry)
    (c : WLCache) :
    applyOps c (loadWhitelistOps entries) = freshCache entries ∧
    cacheStates c (loadWhitelistOps entries)
      = c :: { c with whitelist := [] }
          :: cacheStates { whitelist := [], adminIPs := [] }
              (entries.map entryOp) ∧
    (cacheStates { whitelist := [], adminIPs := [] }
        (entries.map entryOp)).head?
      = some { whitelist := [], adminIPs := [] } := by
  refine ⟨?_, ?_, cacheStates_head (entries.map entryOp) _⟩
  · have h1 : applyOps c (loadWhitelistOps entries)
        = applyOps { whitelist := [], adminIPs := [] }
            (entries.map entryOp) := by
      rw [loadWhitelistOps, applyOps, List.foldl_cons, List.foldl_cons,
        applyOps]
      rfl
    rw [h1, applyOps_entryOps entries [] [], List.nil_append,
      List.nil_append]
    rfl
  · rw [loadWhitelistOps, cacheStates, cacheStates]
    rfl

/-- C8 (counterexample): reloading one regular entry `1.2.3.4` over a
cache currently holding `5.6.7.8` is not an atomic swap-in: the cache
passes through an emptied intermediate state (between the clears and
the repopulation) that is neither the old nor the new set, and the
performed operation sequence is not the single swap operation. -/
theorem loadWhitelist_not_atomic_counterexample :
    cacheStates { whitelist := ["5.6.7.8"], adminIPs := [] }
        (loadWhitelistOps [{ ipAddress := "1.2.3.4", isAdminIP := false }])
      = [{ whitelist := ["5.6.7.8"], adminIPs := [] },
         { whitelist := [], adminIPs := [] },
         { whitelist := [], adminIPs := [] },
         { whitelist := ["1.2.3.4"], adminIPs := [] }] ∧
    (cacheStates { whitelist := ["5.6.7.8"], adminIPs := [] }
        (loadWhitelistOps
          [{ ipAddress := "1.2.3.4", isAdminIP := false }])).contains
        { whitelist := [], adminIPs := [] } = true ∧
    loadWhitelistOps [{ ipAddress := "1.2.3.4", isAdminIP := false }]
      ≠ [CacheOp.swapIn ["1.2.3.4"] []] := by
  refine ⟨by decide, by decide, by decide⟩

/-! ## Backup creation (`BackupService.createBackup`,
`backend/src/services/backupService.js`)

`createBackup` runs: `mkdir`, `backupDatabase` (pg_dump; rethrows with
a `Database backup failed:` message), `backupUploads` (tar; catches its
own errors and returns `null`), metadata with `getFolderSize` (du;
catches its own errors and returns 0), `writeFile`, the optional S3
upload (rethrows), the `completed` Backup insert, and
`cleanupOldBackups` (catches all of its own errors).  Its `catch`
inserts a `failed` Backup record carrying the error message and
rethrows.  Every external call is an `Except`-valued field of
`BackupEnv`; the two Prisma inserts themselves are modelled as
persisting (a database that cannot even record the failure is outside
every claim). -/

/-- The outcomes of the external calls one `createBackup` run makes. -/
structure BackupEnv where
  mkdirRes : Except String Unit
  pgDumpRes : Except String Unit
  tarRes : Except String Unit
  tarCreatesFile : Bool
  duRes : Except String Nat
  writeMetaRes : Except String Unit
  s3Configured : Bool
  s3UploadRes : Except String String
  recordCompletedRes : Except String Unit

/-- The fields of a persisted Backup row that the claim speaks about. -/
structure BackupRec where
  status : String
  location : Option String
  size : Option Nat
  errMsg : Option String
deriving DecidableEq, Repr

def failedRec (e : String) : BackupRec :=
  { status := "failed", location := none, size := none, errMsg := some e }

def completedRec (loc : String) (size : Nat) : BackupRec :=
  { status := "completed", location := some loc, size := some size,
    errMsg := none }

/-- `backupDatabase`: wraps a pg_dump failure in its own message and
rethrows. -/
def backupDatabase (env : BackupEnv) : Except String String :=
  match env.pgDumpRes with
  | Except.ok _ => Except.ok "database.sql"
  | Except.error e => Except.error ("Database backup failed: " ++ e)

/-- `backupUploads`: catches everything; a missing archive or a failed
tar both yield `null`. -/
def backupUploads (env : BackupEnv) : Option String :=
  match env.tarRes with
  | Except.ok _ => if env.tarCreatesFile then some "uploads.tar.gz" else none
  | Except.error _ => none

/-- `getFolderSize`: catches everything and falls back to 0. -/
def getFolderSize (env : BackupEnv) : Nat :=
  match env.duRes with
  | Except.ok n => n
  | Except.error _ => 0

/-- `createBackup`: returns the list of Backup rows persisted during
the run (in order) and the outcome handed to the caller — the success
payload (the recorded location), or the rethrown error. -/
def createBackup (env : BackupEnv) (localPath : String) :
    List BackupRec × Except String String :=
  match env.mkdirRes with
  | Except.error e => ([failedRec e], Except.error e)
  | Except.ok _ =>
  match backupDatabase env with
  | Except.error e => ([failedRec e], Except.error e)
  | Except.ok _dbFile =>
  let _upFile := backupUploads env
  let size := getFolderSize env
  match env.writeMetaRes with
  | Except.error e => ([failedRec e], Except.error e)
  | Except.ok _ =>
  match (if env.s3Configured then Except.map some env.s3UploadRes
      else Except.ok none) with
  | Except.error e => ([failedRec e], Except.error e)
  | Except.ok s3loc =>
    let location := s3loc.getD ("local:" ++ localPath)
    match env.recordCompletedRes with
    | Except.error e => ([failedRec e], Except.error e)
    | Except.ok _ => ([completedRec location size], Except.ok location)

/-- Whether every step of the run succeeded (the uploads archive and
the folder-size probe cannot fail the run: they catch their own
errors). -/
def backupStepsOk (env : BackupEnv) : Bool :=
  env.mkdirRes.isOk && env.pgDumpRes.isOk && env.writeMetaRes.isOk
    && (!env.s3Configured || env.s3UploadRes.isOk)
    && env.recordCompletedRes.isOk

/-- C10: every `createBackup` run persists exactly one Backup record:
the `completed` record carrying the location and size when every step
succeeds (and only then), and otherwise a single `failed` record
carrying exactly the error message that is rethrown to the caller —
failure is never silent and never recorded as success. -/
theorem createBackup_persists_exactly_one (env : BackupEnv)
    (localPath : String) :
    (createBackup env localPath).1.length = 1 ∧
    (match (createBackup env localPath).2 with
     | Except.ok loc =>
        (createBackup env localPath).1 = [completedRec loc (getFolderSize env)]
     | Except.error e => (createBackup env localPath).1 = [failedRec e]) ∧
    (createBackup env localPath).2.isOk = backupStepsOk env := by
  unfold createBackup backupStepsOk backupDatabase
  cases env.mkdirRes with
  | error e => simp [Except.isOk, Except.toBool]
  | ok _ =>
  cases env.pgDumpRes with
  | error e => simp [Except.isOk, Except.toBool]
  | ok _ =>
  cases env.writeMetaRes with
  | error e => simp [Except.isOk, Except.toBool]
  | ok _ =>
  cases env.s3Configured with
  | false =>
      cases env.recordCompletedRes with
      | error e => simp [Except.isOk, Except.toBool]
      | ok _ => simp [Except.isOk, Except.toBool]
  | true =>
      cases env.s3UploadRes with
      | error e => simp [Except.isOk, Except.toBool, Except.map]
      | ok loc =>
          cases env.recordCompletedRes with
          | error e => simp [Except.isOk, Except.toBool, Except.map]
          | ok _ => simp [Except.isOk, Except.toBool, Except.map]

/-! ## Due-date evaluation and dispatch (reminder batch)

Modelled from the spec: the repository ships no scheduler source — only
its collaborators (the `reminderLog` table queried by the admin stats
route, `sendReminderEmail` in the email service) appear under the
source tree — so the Due-Date Evaluator and Dispatcher of spec §4.1–4.3
are modelled from the spec's words: the evaluator returns the dates
whose next occurrence falls inside the inclusive 24-hour window, with
reminders enabled and no ReminderLog entry for that occurrence; the
dispatcher appends one log entry per (date, recipient).  Timestamps are
hours on a uniform 365-day no-leap calendar (leap years are irrelevant
to every claim settled here). -/

/-- Modelled from the spec: a SpecialDate with its resolved recipient
addresses (the Recipient Resolver's output is attached, since resolution
is not itself under test here). -/
structure DateRec where
  id : Nat
  month : Nat
  day : Nat
  year : Nat
  annual : Bool
  reminderEnabled : Bool
  recipients : List String
deriving DecidableEq, Repr

/-- Modelled from the spec: one ReminderLog row — the dispatched
occurrence is identified by (date id, occurrence day). -/
structure LogEntry where
  dateId : Nat
  occurrence : Nat
  recipient : String
  delivered : Bool
deriving DecidableEq, Repr

/-- Days before the first of each month (no leap years). -/
def monthOffset : Nat → Nat
  | 1 => 0 | 2 => 31 | 3 => 59 | 4 => 90 | 5 => 120 | 6 => 151
  | 7 => 181 | 8 => 212 | 9 => 243 | 10 => 273 | 11 => 304 | 12 => 334
  | _ => 365

/-- Day number of a calendar date. -/
def toDayNumber (y m d : Nat) : Nat :=
  y * 365 + monthOffset m + (d - 1)

/-- Modelled from the spec: "for annual dates, next occurrence is
computed by substituting the current (or next, if already passed this
year) year into the stored month/day; non-annual dates use the stored
date as-is". -/
def nextOccurrence (nowH : Nat) (r : DateRec) : Nat :=
  if r.annual then
    let nowDay := nowH / 24
    let y := nowDay / 365
    let cand := toDayNumber y r.month r.day
    if cand < nowDay then toDayNumber (y + 1) r.month r.day else cand
  else toDayNumber r.year r.month r.day

/-- Whether a ReminderLog entry already exists for this occurrence of
this date (any recipient). -/
def hasLogEntry (log : List LogEntry) (dateId occ : Nat) : Bool :=
  log.any (fun e => e.dateId == dateId && e.occurrence == occ)

/-- The log-independent part of being due: reminders enabled and the
occurrence inside the inclusive `[now, now + 24 h]` window. -/
def isDueBase (nowH : Nat) (r : DateRec) : Bool :=
  r.reminderEnabled
    && decide (nowH ≤ 24 * nextOccurrence nowH r)
    && decide (24 * nextOccurrence nowH r ≤ nowH + 24)

/-- Modelled from the spec: a date is due when the base condition holds
and no ReminderLog entry exists for the current occurrence. -/
def isDue (nowH : Nat) (log : List LogEntry) (r : DateRec) : Bool :=
  isDueBase nowH r && !(hasLogEntry log r.id (nextOccurrence nowH r))

/-- Modelled from the spec: the Due-Date Evaluator. -/
def evaluateDue (nowH : Nat) (dates : List DateRec) (log : List LogEntry) :
    List DateRec :=
  dates.filter (isDue nowH log)

/-- One appended ReminderLog row; the transport oracle `tr` decides the
recorded delivery outcome. -/
def mkLog (nowH : Nat) (tr : String → Bool) (d : DateRec) (a : String) :
    LogEntry :=
  { dateId := d.id, occurrence := nextOccurrence nowH d, recipient := a,
    delivered := tr a }

/-- Modelled from the spec: the Dispatcher appends one log row per
(due date, recipient), success or failure alike. -/
def dispatchDue (nowH : Nat) (tr : String → Bool) (due : List DateRec)
    (log : List LogEntry) : List LogEntry :=
  log ++ due.flatMap (fun d => d.recipients.map (mkLog nowH tr d))

/-- One batch run: evaluate, then dispatch. -/
def runReminderBatch (nowH : Nat) (tr : String → Bool)
    (dates : List DateRec) (log : List LogEntry) : List LogEntry :=
  dispatchDue nowH tr (evaluateDue nowH dates log) log

theorem hasLogEntry_append (l1 l2 : List LogEntry) (i o : Nat) :
    hasLogEntry (l1 ++ l2) i o
      = (hasLogEntry l1 i o || hasLogEntry l2 i o) := by
  unfold hasLogEntry
  exact List.any_append

theorem countP_flatMap {α β : Type} (p : β → Bool) (f : α → List β) :
    ∀ l : List α,
      (l.flatMap f).countP p = (l.map (fun x => (f x).countP p)).sum
  | [] => rfl
  | x :: xs => by
      rw [List.flatMap_cons, List.countP_append, List.map_cons,
        List.sum_cons, countP_flatMap p f xs]

/-- C9: the reminder batch is idempotent for a fixed "now": after one
evaluate-and-dispatch run, re-evaluating yields zero due pairs (every
due occurrence is now logged), the second run leaves the log unchanged,
and the final log holds exactly one entry per (due date, recipient)
pair — not two.  Hypotheses: date ids are unique, recipient lists are
duplicate-free and nonempty, and the starting log has no entry yet for
any current occurrence. -/
theorem reminder_batch_idempotent (nowH : Nat) (tr : String → Bool)
    (dates : List DateRec) (log0 : List LogEntry)
    (hids : (dates.map DateRec.id).Nodup)
    (hrec : ∀ d ∈ dates, d.recipients ≠ [])
    (hrnd : ∀ d ∈ dates, d.recipients.Nodup)
    (hfresh : ∀ d ∈ dates,
      hasLogEntry log0 d.id (nextOccurrence nowH d) = false) :
    evaluateDue nowH dates (runReminderBatch nowH tr dates log0) = [] ∧
    runReminderBatch nowH tr dates (runReminderBatch nowH tr dates log0)
      = runReminderBatch nowH tr dates log0 ∧
    ∀ d ∈ evaluateDue nowH dates log0, ∀ a ∈ d.recipients,
      (runReminderBatch nowH tr dates log0).countP
        (fun e => (e.dateId == d.id
            && e.occurrence == nextOccurrence nowH d)
          && e.recipient == a) = 1 := by
  have part1 : evaluateDue nowH dates (runReminderBatch nowH tr dates log0)
      = [] := by
    rw [evaluateDue, List.filter_eq_nil_iff]
    intro d hd hdue1
    rw [isDue, Bool.and_eq_true] at hdue1
    obtain ⟨hbase, hnot⟩ := hdue1
    have hnolog1 : hasLogEntry (runReminderBatch nowH tr dates log0) d.id
        (nextOccurrence nowH d) = false := by
      revert hnot
      cases hasLogEntry (runReminderBatch nowH tr dates log0) d.id
        (nextOccurrence nowH d) <;> simp
    rw [runReminderBatch, dispatchDue, hasLogEntry_append,
      Bool.or_eq_false_iff] at hnolog1
    obtain ⟨h0, hnew⟩ := hnolog1
    have hdue0 : isDue nowH log0 d = true := by
      rw [isDue, hbase, h0]
      rfl
    have hdmem : d ∈ evaluateDue nowH dates log0 :=
      List.mem_filter.mpr ⟨hd, hdue0⟩
    obtain ⟨a, ha⟩ : ∃ a, a ∈ d.recipients := by
      cases hr : d.recipients with
      | nil => exact absurd hr (hrec d hd)
      | cons a t => exact ⟨a, by simp [hr]⟩
    have hent : mkLog nowH tr d a
        ∈ (evaluateDue nowH dates log0).flatMap
            (fun d' => d'.recipients.map (mkLog nowH tr d')) :=
      List.mem_flatMap.mpr ⟨d, hdmem, List.mem_map_of_mem _ ha⟩
    have htrue : hasLogEntry
        ((evaluateDue nowH dates log0).flatMap
          (fun d' => d'.recipients.map (mkLog nowH tr d')))
        d.id (nextOccurrence nowH d) = true := by
      rw [hasLogEntry, List.any_eq_true]
      exact ⟨mkLog nowH tr d a, hent, by simp [mkLog]⟩
    rw [htrue] at hnew
    simp at hnew
  refine ⟨part1, ?_, ?_⟩
  · rw [runReminderBatch, part1, dispatchDue, List.flatMap_nil,
      List.append_nil]
  · intro d hd a ha
    have hd' : d ∈ dates := (List.mem_filter.mp hd).1
    rw [runReminderBatch, dispatchDue, List.countP_append]
    have h0 : log0.countP
        (fun e => (e.dateId == d.id
            && e.occurrence == nextOccurrence nowH d)
          && e.recipient == a) = 0 := by
      rw [List.countP_eq_zero]
      intro e he hpe
      rw [Bool.and_eq_true] at hpe
      have : hasLogEntry log0 d.id (nextOccurrence nowH d) = true := by
        rw [hasLogEntry, List.any_eq_true]
        exact ⟨e, he, hpe.1⟩
      rw [hfresh d hd'] at this
      simp at this
    rw [h0, countP_flatMap]
    have hnd : ((evaluateDue nowH dates log0).map DateRec.id).Nodup :=
      List.Nodup.sublist
        (List.Sublist.map DateRec.id (List.filter_sublist dates)) hids
    obtain ⟨s, t, hsplit⟩ := List.append_of_mem hd
    rw [hsplit] at hnd
    rw [List.map_append, List.map_cons] at hnd
    rw [List.nodup_append] at hnd
    obtain ⟨hnds, hndc, hdisj⟩ := hnd
    have hsid : ∀ d' ∈ s, d'.id ≠ d.id := by
      intro d' hmem heq
      have h1 : d'.id ∈ s.map DateRec.id := List.mem_map_of_mem _ hmem
      have h2 := hdisj h1
      rw [heq] at h2
      exact h2 (List.mem_cons_self _ _)
    have htid : ∀ d' ∈ t, d'.id ≠ d.id := by
      intro d' hmem heq
      rw [List.nodup_cons] at hndc
      apply hndc.1
      rw [← heq]
      exact List.mem_map_of_mem _ hmem
    have hblock0 : ∀ d' : DateRec, d'.id ≠ d.id →
        ((d'.recipients.map (mkLog nowH tr d')).countP
          (fun e => (e.dateId == d.id
              && e.occurrence == nextOccurrence nowH d)
            && e.recipient == a)) = 0 := by
      intro d' hne
      rw [List.countP_map, List.countP_eq_zero]
      intro a' _ hpe
      rw [Function.comp] at hpe
      rw [Bool.and_eq_true, Bool.and_eq_true] at hpe
      have : (mkLog nowH tr d' a').dateId = d.id := by
        have := hpe.1.1
        exact beq_iff_eq.mp this
      exact hne this
    have hcenter : ((d.recipients.map (mkLog nowH tr d)).countP
        (fun e => (e.dateId == d.id
            && e.occurrence == nextOccurrence nowH d)
          && e.recipient == a)) = 1 := by
      rw [List.countP_map]
      have hfun : ((fun e => (e.dateId == d.id
            && e.occurrence == nextOccurrence nowH d)
          && e.recipient == a) ∘ mkLog nowH tr d)
          = fun a' => a' == a := by
        funext a'
        simp [mkLog, Function.comp]
      rw [hfun]
      exact List.count_eq_one_of_mem (hrnd d hd') ha
    rw [hsplit, List.map_append, List.map_cons, List.sum_append,
      List.sum_cons]
    have hs0 : (s.map (fun d' => ((d'.recipients.map (mkLog nowH tr d')).countP
        (fun e => (e.dateId == d.id
            && e.occurrence == nextOccurrence nowH d)
          && e.recipient == a)))).sum = 0 := by
      apply List.sum_eq_zero
      intro x hx
      obtain ⟨d', hmem, hxe⟩ := List.mem_map.mp hx
      rw [← hxe]
      exact hblock0 d' (hsid d' hmem)
    have ht0 : (t.map (fun d' => ((d'.recipients.map (mkLog nowH tr d')).countP
        (fun e => (e.dateId == d.id
            && e.occurrence == nextOccurrence nowH d)
          && e.recipient == a)))).sum = 0 := by
      apply List.sum_eq_zero
      intro x hx
      obtain ⟨d', hmem, hxe⟩ := List.mem_map.mp hx
      rw [← hxe]
      exact hblock0 d' (htid d' hmem)
    rw [hs0, hcenter, ht0]

    rfl

/-- A transport oracle for the reminder witness: every send succeeds. -/
def trueOracle : String → Bool := fun _ => true

/-- The spec scenario's date: Birthday, stored 2024-05-15, annual,
reminders enabled, one resolved recipient. -/
def dateW : DateRec :=
  { id := 1, month := 5, day := 15, year := 2024, annual := true,
    reminderEnabled := true, recipients := ["m@x"] }

/-- C9 (witness): evaluating the spec scenario at noon of 2025-05-14
(hour 17742204 of the model calendar) and dispatching, then evaluating
again, yields zero due pairs, and the log holds exactly one entry for
the (date, recipient) pair. -/
theorem reminder_batch_idempotent_witness :
    evaluateDue 17742204 [dateW]
        (runReminderBatch 17742204 trueOracle [dateW] []) = [] ∧
    (runReminderBatch 17742204 trueOracle [dateW] []).countP
      (fun e => (e.dateId == dateW.id
          && e.occurrence == nextOccurrence 17742204 dateW)
        && e.recipient == "m@x") = 1 := by
  have h := reminder_batch_idempotent 17742204 trueOracle [dateW] []
    (by decide) (by decide) (by decide) (by decide)
  exact ⟨h.1, h.2.2 dateW (by decide) "m@x" (by decide)⟩
